import Mathlib

/-
Verification of the ELF image-inspection slice of the Swift runtime:
the two section registries (dynamic-ELF configuration in
ImageInspectionELF.cpp, static-executable configuration in
ImageInspectionStatic.cpp) and the static ELF binary parser
(StaticBinaryELF.cpp).  Each definition is a shallow embedding of the
corresponding C++ function; comments cite the embedded source region.
-/

/-- Modulus of 64-bit machine arithmetic (Elf64 fields and LP64 pointers). -/
def W : Nat := 2 ^ 64

/-- SectionInfo from ImageInspection.h: a pointer to a metadata block and its
byte size.  The pointer is modelled by its numeric address value. -/
structure SectionInfo where
  data : Nat
  size : Nat
deriving DecidableEq, Repr

/-- One call made by the image-load hook or the runtime on a registry. -/
inductive RegEvent where
  | contribute (block : SectionInfo)
  | activate
deriving DecidableEq, Repr

namespace ImageInspectionELF

/-
Model of one section registry of ImageInspectionELF.cpp.  Both registries in
that file (protocol-conformance, lines 31-66, and type-metadata, lines 34-96)
are textually identical up to renaming, so a single model covers both.  The
state is the blocks vector after the SWIFT_ONCE_F first-use setup performed by
the first contribute call: `some buf` is the live vector (the lookup target is
not yet active), `none` is the deleted and nulled vector after
initializeProtocolConformanceLookup ran.  Each operation returns the new state
together with the list of addImage...BlockCallback invocations it performs, in
order; each list element is the SectionInfo passed to one callback call.
-/

/-- State of a registry: the buffer vector pointer, which is `none` once the
drain (initialize...Lookup) has deleted the vector and set it to nullptr. -/
abbrev RegistryState := Option (List SectionInfo)

/-- Registry state right after the SWIFT_ONCE_F block of the first contribute
call ran: a freshly allocated empty vector. -/
def initialState : RegistryState := some []

/-- Embedding of swift::addImageProtocolConformanceBlock
(ImageInspectionELF.cpp lines 39-54), after its one-time setup: a block of
size 0 is ignored; otherwise, under the lock, the block is forwarded to the
callback when the vector pointer is null (post-activation) and appended to the
vector otherwise.  addImageTypeMetadataRecordBlock (lines 69-84) is the same
function on the twin registry. -/
def addImageProtocolConformanceBlock (st : RegistryState) (block : SectionInfo) :
    RegistryState × List SectionInfo :=
  if 0 < block.size then
    match st with
    | none => (none, [block])
    | some buf => (some (buf ++ [block]), [])
  else (st, [])

/-- Embedding of swift::initializeProtocolConformanceLookup
(ImageInspectionELF.cpp lines 56-66): under the lock, when the vector still
exists every buffered block is forwarded to the callback in vector order, then
the vector is deleted and the pointer nulled; when the pointer is already null
nothing happens.  initializeTypeMetadataRecordLookup (lines 86-96) is the same
function on the twin registry. -/
def initializeProtocolConformanceLookup (st : RegistryState) :
    RegistryState × List SectionInfo :=
  match st with
  | some buf => (none, buf)
  | none => (none, [])

/-- One registry call: dispatches a RegEvent to the embedded operation. -/
def step (st : RegistryState) : RegEvent → RegistryState × List SectionInfo
  | .contribute b => addImageProtocolConformanceBlock st b
  | .activate => initializeProtocolConformanceLookup st

/-- Runs a sequence of registry calls, concatenating the callback invocations
each call performs, in order. -/
def run (st : RegistryState) : List RegEvent → RegistryState × List SectionInfo
  | [] => (st, [])
  | e :: es =>
    let r := step st e
    let rest := run r.1 es
    (rest.1, r.2 ++ rest.2)

end ImageInspectionELF

namespace ImageInspectionStatic

/-
Model of one section registry of ImageInspectionStatic.cpp.  Both registries
in that file (protocolConformances and typeMetadata, lines 24-48) are
textually identical up to renaming, so a single model covers both.  The state
is the single static SectionInfo slot, zero-initialized by C static storage.
-/

/-- The zero-initialized static SectionInfo slot (null data pointer, size 0). -/
def initialState : SectionInfo := ⟨0, 0⟩

/-- Embedding of swift::addImageProtocolConformanceBlock
(ImageInspectionStatic.cpp lines 28-31): plain assignment into the static
slot, overwriting any earlier contribution.  addImageTypeMetadataRecordBlock
(lines 33-36) is the same function on the twin slot. -/
def addImageProtocolConformanceBlock (_st : SectionInfo) (block : SectionInfo) :
    SectionInfo :=
  block

/-- Embedding of swift::initializeProtocolConformanceLookup
(ImageInspectionStatic.cpp lines 38-42): unconditionally passes the slot, data
and size as they stand, to addImageProtocolConformanceBlockCallback.
initializeTypeMetadataRecordLookup (lines 44-48) is the same function on the
twin slot. -/
def initializeProtocolConformanceLookup (st : SectionInfo) :
    SectionInfo × List SectionInfo :=
  (st, [st])

/-- One registry call in the static configuration. -/
def step (st : SectionInfo) : RegEvent → SectionInfo × List SectionInfo
  | .contribute b => (addImageProtocolConformanceBlock st b, [])
  | .activate => initializeProtocolConformanceLookup st

/-- Runs a sequence of registry calls in the static configuration. -/
def run (st : SectionInfo) : List RegEvent → SectionInfo × List SectionInfo
  | [] => (st, [])
  | e :: es =>
    let r := step st e
    let rest := run r.1 es
    (rest.1, r.2 ++ rest.2)

end ImageInspectionStatic

/-
Shallow embedding of StaticBinaryELF.cpp (the __LP64__ configuration, so
Elf64 structures: sizeof(Elf_Ehdr) = sizeof(Elf_Shdr) = 64,
sizeof(Elf_Phdr) = 56, ELFCLASS = ELFCLASS64).  Machine integers are Nat with
an explicit % W where 64-bit overflow can occur.  Pointers into the memory
mapping are modelled by their numeric address values; the content read
through an in-bounds pointer is supplied by the decoded ElfFile record.
-/

def ELFMAG0 : Nat := 0x7f
def ELFMAG1 : Nat := 0x45
def ELFMAG2 : Nat := 0x4c
def ELFMAG3 : Nat := 0x46
/-- ELFCLASS64, the value the __LP64__ build of StaticBinaryELF.cpp checks. -/
def ELFCLASS : Nat := 2
def ET_EXEC : Nat := 2
def EV_CURRENT : Nat := 1
def PT_LOAD : Nat := 1
def PT_INTERP : Nat := 3
def SHT_SYMTAB : Nat := 2
def SHT_STRTAB : Nat := 3
def STT_FUNC : Nat := 2
/-- sizeof(Elf64_Ehdr). -/
def ehdrSize : Nat := 64
/-- sizeof(Elf64_Shdr), the stride by which findSection indexes headers. -/
def shdrSize : Nat := 64

/-- The fields of Elf_Ehdr that StaticBinaryELF.cpp reads.  ei fields are the
e_ident bytes (magic and EI_CLASS). -/
structure ElfEhdr where
  ei_mag0 : Nat
  ei_mag1 : Nat
  ei_mag2 : Nat
  ei_mag3 : Nat
  ei_class : Nat
  e_type : Nat
  e_version : Nat
  e_ehsize : Nat
  e_phoff : Nat
  e_phentsize : Nat
  e_phnum : Nat
  e_shoff : Nat
  e_shentsize : Nat
  e_shnum : Nat
  e_shstrndx : Nat
deriving DecidableEq, Repr

/-- The fields of Elf_Phdr that StaticBinaryELF.cpp reads. -/
structure ElfPhdr where
  p_type : Nat
  p_vaddr : Nat
  p_memsz : Nat
deriving DecidableEq, Repr

/-- The fields of Elf_Shdr that StaticBinaryELF.cpp reads. -/
structure ElfShdr where
  sh_type : Nat
  sh_offset : Nat
  sh_size : Nat
  sh_entsize : Nat
deriving DecidableEq, Repr

/-- The fields of Elf_Sym that findSymbol reads; st_type is
ELF64_ST_TYPE(st_info). -/
structure ElfSym where
  st_type : Nat
  st_value : Nat
  st_size : Nat
deriving DecidableEq, Repr

/-- The decoded content of the examined executable file: the ELF header at
offset 0, the program-header table at e_phoff, the section-header table at
e_shoff, and the Elf_Sym records at the sh_offset of the symbol-table
section.  The C code reads these through the memory mapping; the loops bound
their scans by the e_phnum / e_shnum / sh_size fields, so the embedding scans
a take of the decoded tables (for a well-formed file the decoded table has
exactly that many entries). -/
structure ElfFile where
  fileSize : Nat
  ehdr : ElfEhdr
  phdrs : List ElfPhdr
  shdrs : List ElfShdr
  syms : List ElfSym
deriving DecidableEq, Repr

/-- The mapping state threaded through parsing: the address of the mmap
region (the mapping pointer, never null while parsing runs), its current
length, the file size from fstat, and the mremap oracle: remaps n is the
address the n-th mremap call returns, or none for MAP_FAILED.  remapCount
counts the mremap calls made so far. -/
structure MapSt where
  base : Nat
  mapLength : Nat
  fileSize : Nat
  remaps : Nat → Option Nat
  remapCount : Nat

/-- Embedding of StaticBinaryELF::expandMapping (StaticBinaryELF.cpp lines
259-274).  The `mapping == nullptr` guard of the source never fires in the
embedded executions because expandMapping is only called while parsing a live
mapping; the size-versus-fileSize guard is embedded as written.  On a grow,
mremap(MREMAP_MAYMOVE) may relocate the region: the new base comes from the
oracle, and only the elfHeader pointer is rebased by the source (line 271),
which the final-state construction of mmapExecutable reflects. -/
def expandMapping (st : MapSt) (size : Nat) : Bool × MapSt :=
  if st.fileSize < size then (false, st)
  else if st.mapLength < size then
    match st.remaps st.remapCount with
    | none => (false, { st with remapCount := st.remapCount + 1 })
    | some b =>
      (true, { st with base := b, mapLength := size,
                       remapCount := st.remapCount + 1 })
  else (true, st)

/-- The corrupt-section test of findSection (StaticBinaryELF.cpp line 243):
a nonzero entry size that does not divide the section size. -/
def sectionCorrupt (h : ElfShdr) : Bool :=
  decide (0 < h.sh_entsize) && decide (h.sh_size % h.sh_entsize ≠ 0)

/-- The loop of StaticBinaryELF::findSection (StaticBinaryELF.cpp lines
237-255) over the enumerated section-header table.  headersBase is the value
of the local `headers` pointer, computed from the mapping base at entry to
findSection (line 234); the returned section pointer is
headersBase + idx * sizeof(Elf_Shdr), still relative to that entry-time base
even when the expandMapping call just before the return relocated the
mapping. -/
def findSectionLoop (file : ElfFile) (sectionType : Nat) (headersBase : Nat) :
    List (Nat × ElfShdr) → MapSt → Option (Nat × ElfShdr) × MapSt
  | [], st => (none, st)
  | (idx, h) :: rest, st =>
    if idx = file.ehdr.e_shstrndx then
      findSectionLoop file sectionType headersBase rest st
    else if h.sh_type = sectionType then
      if sectionCorrupt h then (none, st)
      else
        let r := expandMapping st ((h.sh_offset + h.sh_size) % W)
        if r.1 then (some ((headersBase + idx * shdrSize) % W, h), r.2)
        else (none, r.2)
    else findSectionLoop file sectionType headersBase rest st

/-- Embedding of StaticBinaryELF::findSection (StaticBinaryELF.cpp lines
233-257): scans the section-header table for a section of the given type,
skipping the index e_shstrndx, and returns the address of the section header
together with its decoded value, or none. -/
def findSection (file : ElfFile) (st : MapSt) (sectionType : Nat) :
    Option (Nat × ElfShdr) × MapSt :=
  let headersBase := (st.base + file.ehdr.e_shoff) % W
  findSectionLoop file sectionType headersBase
    ((file.shdrs.take file.ehdr.e_shnum).enum) st

/-- Result of readElfHeader: the returned Bool, the final mapping state, and
the symbolTable / stringTable members it assigned. -/
structure HeaderResult where
  ok : Bool
  st : MapSt
  symbolTable : Option (Nat × ElfShdr)
  stringTable : Option (Nat × ElfShdr)

/-- Third phase of StaticBinaryELF::readElfHeader (StaticBinaryELF.cpp lines
221-229): given the result of the section-header-table expandMapping call,
fail if it failed, otherwise locate the symbol table and the string table and
return true. -/
def readElfHeaderSections (file : ElfFile) (r2 : Bool × MapSt) : HeaderResult :=
  if r2.1 = false then ⟨false, r2.2, none, none⟩
  else
    let rSym := findSection file r2.2 SHT_SYMTAB
    let rStr := findSection file rSym.2 SHT_STRTAB
    ⟨true, rStr.2, rSym.1, rStr.1⟩

/-- Second phase of StaticBinaryELF::readElfHeader (StaticBinaryELF.cpp lines
205-225): given the result of the program-header-table expandMapping call,
fail if it failed, fail if any scanned program header has type PT_INTERP
(dynamically linked), otherwise expand over the section-header table and
continue. -/
def readElfHeaderProgram (file : ElfFile) (r1 : Bool × MapSt) : HeaderResult :=
  if r1.1 = false then ⟨false, r1.2, none, none⟩
  else if (file.phdrs.take file.ehdr.e_phnum).any
      (fun h => h.p_type == PT_INTERP) then
    ⟨false, r1.2, none, none⟩
  else
    let sectionHeaderSize := file.ehdr.e_shentsize * file.ehdr.e_shnum
    readElfHeaderSections file
      (expandMapping r1.2 ((file.ehdr.e_shoff + sectionHeaderSize) % W))

/-- Embedding of StaticBinaryELF::readElfHeader (StaticBinaryELF.cpp lines
185-230): validate the magic bytes (lines 189-194), then the class, type,
version and header size (lines 198-203), then map in and scan the program
headers and the section headers.  Returns false on any validation failure. -/
def readElfHeader (file : ElfFile) (st0 : MapSt) : HeaderResult :=
  if file.ehdr.ei_mag0 ≠ ELFMAG0 ∨ file.ehdr.ei_mag1 ≠ ELFMAG1
      ∨ file.ehdr.ei_mag2 ≠ ELFMAG2 ∨ file.ehdr.ei_mag3 ≠ ELFMAG3 then
    ⟨false, st0, none, none⟩
  else if file.ehdr.ei_class ≠ ELFCLASS ∨ file.ehdr.e_type ≠ ET_EXEC
      ∨ file.ehdr.e_version ≠ EV_CURRENT ∨ file.ehdr.e_ehsize ≠ ehdrSize then
    ⟨false, st0, none, none⟩
  else
    let programHeaderSize := file.ehdr.e_phentsize * file.ehdr.e_phnum
    readElfHeaderProgram file
      (expandMapping st0 ((file.ehdr.e_phoff + programHeaderSize) % W))

/-- The members of a constructed StaticBinaryELF object that the queries
read.  mapping, elfHeader and the two section members are pointers, `none`
modelling nullptr; the section members also carry the decoded section header
their address was formed from. -/
structure StaticBinaryELF where
  fileSize : Nat
  mapLength : Nat
  mapping : Option Nat
  elfHeader : Option Nat
  symbolTable : Option (Nat × ElfShdr)
  stringTable : Option (Nat × ElfShdr)
deriving DecidableEq, Repr

namespace StaticBinaryELF

/-- Embedding of StaticBinaryELF::mmapExecutable (StaticBinaryELF.cpp lines
146-178) from the point where open, fstat and the initial header mmap have
succeeded: base0 is the address mmap returned for the initial
sizeof(Elf_Ehdr)-byte mapping and remaps is the mremap oracle.  On a
readElfHeader failure the object is left disabled: the region is unmapped and
mapping, elfHeader, symbolTable and stringTable are all null (lines 169-175).
On success, elfHeader equals the final mapping base, since expandMapping
rebases it on every relocation. -/
def mmapExecutable (file : ElfFile) (base0 : Nat) (remaps : Nat → Option Nat) :
    StaticBinaryELF :=
  let st0 : MapSt := ⟨base0, ehdrSize, file.fileSize, remaps, 0⟩
  let r := readElfHeader file st0
  if r.ok then
    { fileSize := file.fileSize, mapLength := r.st.mapLength,
      mapping := some r.st.base, elfHeader := some r.st.base,
      symbolTable := r.symbolTable, stringTable := r.stringTable }
  else
    { fileSize := file.fileSize, mapLength := 0, mapping := none,
      elfHeader := none, symbolTable := none, stringTable := none }

/-- The match test of the getSectionLoadAddress loop (StaticBinaryELF.cpp
lines 90-91): a PT_LOAD header whose closed range contains the address, the
upper bound computed in 64-bit arithmetic. -/
def phMatches (addr : Nat) (h : ElfPhdr) : Bool :=
  h.p_type == PT_LOAD && decide (h.p_vaddr ≤ addr)
    && decide (addr ≤ (h.p_vaddr + h.p_memsz) % W)

/-- The loop of StaticBinaryELF::getSectionLoadAddress (StaticBinaryELF.cpp
lines 88-94): returns p_vaddr of the first matching program header. -/
def loadSegLoop (addr : Nat) : List ElfPhdr → Option Nat
  | [] => none
  | h :: rest => if phMatches addr h then some h.p_vaddr else loadSegLoop addr rest

/-- Embedding of StaticBinaryELF::getSectionLoadAddress (StaticBinaryELF.cpp
lines 82-97): null elfHeader (disabled parser) answers nullptr; otherwise the
program-header table is scanned and the p_vaddr of the first PT_LOAD header
whose closed range contains the address is returned (the C function returns
it cast to void star, so a found p_vaddr of 0 is indistinguishable from the
not-found nullptr at the C type; the embedding records which return statement
executed). -/
def getSectionLoadAddress (file : ElfFile) (p : StaticBinaryELF) (addr : Nat) :
    Option Nat :=
  match p.elfHeader with
  | none => none
  | some _ => loadSegLoop addr (file.phdrs.take file.ehdr.e_phnum)

/-- The match test of the findSymbol loop (StaticBinaryELF.cpp lines
109-111): a function-typed symbol whose half-open range contains the address,
the upper bound computed in 64-bit arithmetic. -/
def symMatches (addr : Nat) (s : ElfSym) : Bool :=
  s.st_type == STT_FUNC && decide (s.st_value ≤ addr)
    && decide (addr < (s.st_value + s.st_size) % W)

/-- The loop of StaticBinaryELF::findSymbol (StaticBinaryELF.cpp lines
107-114): returns the first matching symbol-table entry. -/
def findSymbolLoop (addr : Nat) : List ElfSym → Option ElfSym
  | [] => none
  | s :: rest => if symMatches addr s then some s else findSymbolLoop addr rest

/-- Embedding of StaticBinaryELF::findSymbol (StaticBinaryELF.cpp lines
100-117): null symbolTable answers nullptr; otherwise the entry count is
sh_size / sh_entsize (the source divides without a zero check; a symbol-table
section with sh_entsize = 0 passes the findSection corrupt test and makes
this division undefined in C, which no claim exercises — Nat division makes
it 0 here) and the symbol records are scanned in table order. -/
def findSymbol (file : ElfFile) (p : StaticBinaryELF) (addr : Nat) :
    Option ElfSym :=
  match p.symbolTable with
  | none => none
  | some (_, sec) =>
    let entries := sec.sh_size / sec.sh_entsize
    findSymbolLoop addr (file.syms.take entries)

end StaticBinaryELF

/-- Whether every block a registry buffer holds has nonzero size; trivially
true once the buffer has been discarded. -/
def bufOk (st : ImageInspectionELF.RegistryState) : Prop :=
  ∀ b ∈ st.getD [], 0 < b.size

/-- Predicate written from the words of the specification for findSymbol: a
symbol-table entry whose type is function and whose half-open range
[st_value, st_value + st_size) contains the address. -/
def specSymMatch (addr : Nat) (s : ElfSym) : Bool :=
  decide (s.st_type = STT_FUNC ∧ s.st_value ≤ addr
    ∧ addr < s.st_value + s.st_size)

/-- Predicate written from the words of the specification for
loadSegmentContaining: a PT_LOAD program header whose closed range
[p_vaddr, p_vaddr + p_memsz] contains the address. -/
def specPhMatch (addr : Nat) (h : ElfPhdr) : Bool :=
  decide (h.p_type = PT_LOAD ∧ h.p_vaddr ≤ addr
    ∧ addr ≤ h.p_vaddr + h.p_memsz)

/-
Concrete inputs used by counterexamples, failing-input demonstrations and
witnesses.
-/

/-- A well-formed ELF header for a 64-bit static executable: one program
header at offset 64, two section headers at offset 120, section-header string
table at index 1. -/
def c2Ehdr : ElfEhdr :=
  { ei_mag0 := 0x7f, ei_mag1 := 0x45, ei_mag2 := 0x4c, ei_mag3 := 0x46,
    ei_class := 2, e_type := 2, e_version := 1, e_ehsize := 64,
    e_phoff := 64, e_phentsize := 56, e_phnum := 1,
    e_shoff := 120, e_shentsize := 64, e_shnum := 2, e_shstrndx := 1 }

/-- The symbol-table section header of the c2 file: 24 bytes of symbols at
offset 248, entry size 24. -/
def c2SymShdr : ElfShdr := ⟨SHT_SYMTAB, 248, 24, 24⟩

/-- A valid static executable whose symbol table lies past the mapped
section-header table, so locating it forces one further mapping grow. -/
def c2File : ElfFile :=
  { fileSize := 1000, ehdr := c2Ehdr,
    phdrs := [⟨PT_LOAD, 0, 0x2000⟩],
    shdrs := [c2SymShdr, ⟨SHT_STRTAB, 0, 0, 0⟩],
    syms := [⟨STT_FUNC, 0x100, 0x20⟩] }

/-- The mremap oracle for the c2 run: the first two grows keep the mapping at
its place, the third (the one findSection issues for the symbol table)
relocates it from 0x1000 to 0x100000. -/
def c2Remaps : Nat → Option Nat :=
  fun n => if n < 2 then some 0x1000 else some 0x100000

/-- A section-header table whose first section of type SHT_SYMTAB (index 1)
is corrupt — sh_size 25 is not a multiple of sh_entsize 24 — while index 2
holds a well-formed SHT_SYMTAB section. -/
def c3File : ElfFile :=
  { fileSize := 1000,
    ehdr := { c2Ehdr with e_shnum := 3, e_shstrndx := 3 },
    phdrs := [],
    shdrs := [⟨0, 0, 0, 0⟩, ⟨SHT_SYMTAB, 300, 25, 24⟩,
              ⟨SHT_SYMTAB, 400, 24, 24⟩],
    syms := [] }

/-- A mapping state covering the c3 section-header table, with an mremap
oracle that always succeeds in place. -/
def c3St : MapSt := ⟨0x1000, 312, 1000, fun _ => some 0x1000, 0⟩

/-- A file whose ELF header has a wrong first magic byte. -/
def c4BadFile : ElfFile :=
  { fileSize := 1000, ehdr := { c2Ehdr with ei_mag0 := 0 },
    phdrs := [⟨PT_LOAD, 0, 0x2000⟩], shdrs := [], syms := [] }

/-- An mremap oracle that always succeeds without moving the mapping. -/
def stayRemaps : Nat → Option Nat := fun _ => some 0x1000

/-- A constructed parser whose symbol table holds two function symbols, the
first spanning [0x1000, 0x1020). -/
def c6File : ElfFile :=
  { fileSize := 1000, ehdr := c2Ehdr,
    phdrs := [⟨PT_LOAD, 0, 0x2000⟩],
    shdrs := [⟨SHT_SYMTAB, 248, 48, 24⟩, ⟨SHT_STRTAB, 0, 0, 0⟩],
    syms := [⟨STT_FUNC, 0x1000, 0x20⟩, ⟨STT_FUNC, 0x1400, 0x10⟩] }

/-- The parser object over c6File after a successful parse. -/
def c6Parser : StaticBinaryELF :=
  { fileSize := 1000, mapLength := 296, mapping := some 0x1000,
    elfHeader := some 0x1000,
    symbolTable := some (0x1078, ⟨SHT_SYMTAB, 248, 48, 24⟩),
    stringTable := none }

/-
Helper lemmas about the dynamic-ELF registry model.
-/

/-- One registry call preserves the nonzero-size buffer invariant and emits
only nonzero-size blocks. -/
theorem elf_step_sizes (st : ImageInspectionELF.RegistryState) (e : RegEvent)
    (h : bufOk st) :
    bufOk (ImageInspectionELF.step st e).1
      ∧ ∀ b ∈ (ImageInspectionELF.step st e).2, 0 < b.size := by
  cases e with
  | contribute c =>
    by_cases hc : 0 < c.size
    · cases st with
      | none =>
        constructor
        · simp [bufOk, ImageInspectionELF.step,
            ImageInspectionELF.addImageProtocolConformanceBlock, hc]
        · intro b hb
          simp [ImageInspectionELF.step,
            ImageInspectionELF.addImageProtocolConformanceBlock, hc] at hb
          exact hb ▸ hc
      | some buf =>
        constructor
        · simp only [bufOk, ImageInspectionELF.step,
            ImageInspectionELF.addImageProtocolConformanceBlock, hc, if_pos,
            Option.getD_some] at h ⊢
          intro b hb
          rcases List.mem_append.mp hb with hb | hb
          · exact h b hb
          · rcases List.mem_singleton.mp hb with rfl
            exact hc
        · intro b hb
          simp [ImageInspectionELF.step,
            ImageInspectionELF.addImageProtocolConformanceBlock, hc] at hb
    · cases st with
      | none =>
        constructor
        · simp [bufOk, ImageInspectionELF.step,
            ImageInspectionELF.addImageProtocolConformanceBlock, hc]
        · intro b hb
          simp [ImageInspectionELF.step,
            ImageInspectionELF.addImageProtocolConformanceBlock, hc] at hb
      | some buf =>
        constructor
        · simpa [bufOk, ImageInspectionELF.step,
            ImageInspectionELF.addImageProtocolConformanceBlock, hc] using h
        · intro b hb
          simp [ImageInspectionELF.step,
            ImageInspectionELF.addImageProtocolConformanceBlock, hc] at hb
  | activate =>
    cases st with
    | none =>
      exact ⟨by simp [bufOk, ImageInspectionELF.step,
        ImageInspectionELF.initializeProtocolConformanceLookup], by
        intro b hb
        simp [ImageInspectionELF.step,
          ImageInspectionELF.initializeProtocolConformanceLookup] at hb⟩
    | some buf =>
      constructor
      · simp [bufOk, ImageInspectionELF.step,
          ImageInspectionELF.initializeProtocolConformanceLookup]
      · intro b hb
        simp only [ImageInspectionELF.step,
          ImageInspectionELF.initializeProtocolConformanceLookup] at hb
        exact h b (by simpa [bufOk] using hb)

/-- A run from a state whose buffer holds only nonzero-size blocks emits only
nonzero-size blocks. -/
theorem elf_run_sizes (events : List RegEvent)
    (st : ImageInspectionELF.RegistryState) (h : bufOk st) :
    ∀ b ∈ (ImageInspectionELF.run st events).2, 0 < b.size := by
  induction events generalizing st with
  | nil =>
    intro b hb
    simp [ImageInspectionELF.run] at hb
  | cons e es ih =>
    intro b hb
    simp only [ImageInspectionELF.run, List.mem_append] at hb
    rcases hb with hb | hb
    · exact (elf_step_sizes st e h).2 b hb
    · exact ih _ (elf_step_sizes st e h).1 b hb

/-- Running the contribute calls for a block list and then one activate, from
a live buffer, discards the buffer and emits the buffered blocks followed by
the nonzero-size contributions, in order. -/
theorem elf_contributes_activate (blocks : List SectionInfo)
    (buf : List SectionInfo) :
    ImageInspectionELF.run (some buf)
        (blocks.map RegEvent.contribute ++ [RegEvent.activate])
      = (none, buf ++ blocks.filter (fun b => 0 < b.size)) := by
  induction blocks generalizing buf with
  | nil =>
    simp [ImageInspectionELF.run, ImageInspectionELF.step,
      ImageInspectionELF.initializeProtocolConformanceLookup]
  | cons b bs ih =>
    by_cases h : 0 < b.size <;>
      simp [ImageInspectionELF.run, ImageInspectionELF.step,
        ImageInspectionELF.addImageProtocolConformanceBlock, h, ih,
        List.filter_cons]

/-- After any event sequence ending in an activate, the buffer pointer is
null. -/
theorem elf_run_snoc_activate (events : List RegEvent)
    (st : ImageInspectionELF.RegistryState) :
    (ImageInspectionELF.run st (events ++ [RegEvent.activate])).1 = none := by
  induction events generalizing st with
  | nil =>
    cases st <;>
      simp [ImageInspectionELF.run, ImageInspectionELF.step,
        ImageInspectionELF.initializeProtocolConformanceLookup]
  | cons e es ih =>
    simp only [List.cons_append, ImageInspectionELF.run]
    exact ih _

/-- Running only contribute calls in the static configuration leaves the last
contributed block in the slot (or the initial slot value) and emits nothing;
the activate that follows emits exactly that slot value once. -/
theorem static_contributes_activate (blocks : List SectionInfo)
    (st : SectionInfo) :
    ImageInspectionStatic.run st
        (blocks.map RegEvent.contribute ++ [RegEvent.activate])
      = (blocks.getLastD st, [blocks.getLastD st]) := by
  induction blocks generalizing st with
  | nil =>
    simp [ImageInspectionStatic.run, ImageInspectionStatic.step,
      ImageInspectionStatic.initializeProtocolConformanceLookup]
  | cons b bs ih =>
    simp only [List.map_cons, List.cons_append, ImageInspectionStatic.run,
      ImageInspectionStatic.step,
      ImageInspectionStatic.addImageProtocolConformanceBlock, List.append_eq]
    rw [ih b, List.getLastD_cons]
    simp

/-
Claim theorems for the section registries.
-/

/-- Claim C1, counterexample: in the static-executable configuration,
contributing a block of size 0 and then activating passes that zero-size
contributed block to the drain callback, so a zero-size contributed block is
not, for every registry, kept out of the drain callback's input. -/
theorem c1_counterexample :
    (ImageInspectionStatic.run ImageInspectionStatic.initialState
        [RegEvent.contribute ⟨1, 0⟩, RegEvent.activate]).2 = [⟨1, 0⟩]
    ∧ (⟨1, 0⟩ : SectionInfo).size = 0 := by
  decide

/-- Claim C1, amended: in the dynamic-ELF registries (both configurations of
ImageInspectionELF.cpp), across every sequence of contribute and activate
calls, a block whose size equals 0 is never passed to the drain callback,
before or after activation.  (The static-executable configuration forwards
its slot to the callback unconditionally at activation, size 0 included.) -/
theorem c1_elf_no_zero_size (events : List RegEvent) :
    ∀ b ∈ (ImageInspectionELF.run ImageInspectionELF.initialState events).2,
      0 < b.size :=
  elf_run_sizes events ImageInspectionELF.initialState
    (by simp [bufOk, ImageInspectionELF.initialState])

/-- Witness for c1_elf_no_zero_size at a concrete event sequence. -/
theorem c1_witness :
    (⟨5, 3⟩ : SectionInfo) ∈ (ImageInspectionELF.run
        ImageInspectionELF.initialState
        [RegEvent.contribute ⟨5, 3⟩, RegEvent.activate]).2
    ∧ 0 < (⟨5, 3⟩ : SectionInfo).size :=
  ⟨by decide, c1_elf_no_zero_size
    [RegEvent.contribute ⟨5, 3⟩, RegEvent.activate] ⟨5, 3⟩ (by decide)⟩

/-- Claim C5: for every sequence of contribute calls on a dynamic-ELF
registry followed by exactly one activate, the drain callback receives
exactly the contributed blocks of nonzero size, in contribution order, none
lost and none duplicated. -/
theorem c5_drain_exact_order (blocks : List SectionInfo) :
    (ImageInspectionELF.run ImageInspectionELF.initialState
        (blocks.map RegEvent.contribute ++ [RegEvent.activate])).2
      = blocks.filter (fun b => 0 < b.size) := by
  rw [ImageInspectionELF.initialState, elf_contributes_activate]
  simp

/-- Claim C8: a dynamic-ELF registry activate always leaves the buffer
pointer null; from the null-buffer state every event sequence keeps it null
(the buffer is never repopulated); and a contribute call in the null-buffer
state forwards the block to the drain callback immediately when its size is
nonzero and performs no callback otherwise. -/
theorem c8_post_activation_forwarding :
    (∀ st : ImageInspectionELF.RegistryState,
        (ImageInspectionELF.initializeProtocolConformanceLookup st).1 = none)
    ∧ (∀ events : List RegEvent,
        (ImageInspectionELF.run none events).1 = none)
    ∧ ∀ b : SectionInfo,
        ImageInspectionELF.addImageProtocolConformanceBlock none b
          = (none, if 0 < b.size then [b] else []) := by
  refine ⟨fun st => by cases st <;> rfl, fun events => ?_, fun b => ?_⟩
  · induction events with
    | nil => rfl
    | cons e es ih =>
      simp only [ImageInspectionELF.run]
      have hstep : (ImageInspectionELF.step none e).1 = none := by
        cases e with
        | contribute c =>
          by_cases hc : 0 < c.size <;>
            simp [ImageInspectionELF.step,
              ImageInspectionELF.addImageProtocolConformanceBlock, hc]
        | activate => rfl
      rw [hstep]
      exact ih
  · by_cases hc : 0 < b.size <;>
      simp [ImageInspectionELF.addImageProtocolConformanceBlock, hc]

/-- Claim C9: after an activate has run on a dynamic-ELF registry (preceded
by any event history), a second activate invokes the drain callback zero
times and leaves the registry state unchanged. -/
theorem c9_second_activate_noop (events : List RegEvent) :
    ImageInspectionELF.step
        (ImageInspectionELF.run ImageInspectionELF.initialState
          (events ++ [RegEvent.activate])).1 RegEvent.activate
      = ((ImageInspectionELF.run ImageInspectionELF.initialState
          (events ++ [RegEvent.activate])).1, []) := by
  rw [elf_run_snoc_activate]
  rfl

/-- Claim C10: in the static-executable configuration each registry keeps at
most one block with last-writer-wins semantics: any sequence of contribute
calls followed by activate makes the drain callback fire exactly once, with
the most recently contributed block, or with the zero-initialized block
(null data, size 0) when nothing was contributed. -/
theorem c10_static_last_writer_wins (blocks : List SectionInfo) :
    (ImageInspectionStatic.run ImageInspectionStatic.initialState
        (blocks.map RegEvent.contribute ++ [RegEvent.activate])).2
      = [blocks.getLastD ImageInspectionStatic.initialState] := by
  rw [static_contributes_activate]

/-
Claim theorems for the static ELF binary parser.
-/

/-- Any of the header-validation mismatches, or a PT_INTERP program header,
makes readElfHeader return false. -/
theorem readElfHeader_invalid (file : ElfFile) (st0 : MapSt)
    (hbad : file.ehdr.ei_mag0 ≠ ELFMAG0 ∨ file.ehdr.ei_mag1 ≠ ELFMAG1
      ∨ file.ehdr.ei_mag2 ≠ ELFMAG2 ∨ file.ehdr.ei_mag3 ≠ ELFMAG3
      ∨ file.ehdr.ei_class ≠ ELFCLASS ∨ file.ehdr.e_type ≠ ET_EXEC
      ∨ file.ehdr.e_version ≠ EV_CURRENT ∨ file.ehdr.e_ehsize ≠ ehdrSize
      ∨ (file.phdrs.take file.ehdr.e_phnum).any
          (fun h => h.p_type == PT_INTERP) = true) :
    (readElfHeader file st0).ok = false := by
  unfold readElfHeader
  split_ifs with h1 h2
  · rfl
  · rfl
  · push_neg at h1 h2
    have hint : (file.phdrs.take file.ehdr.e_phnum).any
        (fun h => h.p_type == PT_INTERP) = true := by
      rcases hbad with h | h | h | h | h | h | h | h | h
      · exact (h h1.1).elim
      · exact (h h1.2.1).elim
      · exact (h h1.2.2.1).elim
      · exact (h h1.2.2.2).elim
      · exact (h h2.1).elim
      · exact (h h2.2.1).elim
      · exact (h h2.2.2.1).elim
      · exact (h h2.2.2.2).elim
      · exact h
    unfold readElfHeaderProgram
    simp [hint]

/-- Claim C4: when the ELF header fails validation (wrong magic byte, class
not matching the host pointer width, type not executable, version not
current, header size mismatch) or a PT_INTERP program header is present,
parsing aborts, the parser is disabled (null mapping, header, symbol table
and string table), and every later getSectionLoadAddress and findSymbol
query answers none. -/
theorem c4_invalid_elf_disables_queries (file : ElfFile) (base0 : Nat)
    (remaps : Nat → Option Nat)
    (hbad : file.ehdr.ei_mag0 ≠ ELFMAG0 ∨ file.ehdr.ei_mag1 ≠ ELFMAG1
      ∨ file.ehdr.ei_mag2 ≠ ELFMAG2 ∨ file.ehdr.ei_mag3 ≠ ELFMAG3
      ∨ file.ehdr.ei_class ≠ ELFCLASS ∨ file.ehdr.e_type ≠ ET_EXEC
      ∨ file.ehdr.e_version ≠ EV_CURRENT ∨ file.ehdr.e_ehsize ≠ ehdrSize
      ∨ (file.phdrs.take file.ehdr.e_phnum).any
          (fun h => h.p_type == PT_INTERP) = true) :
    (StaticBinaryELF.mmapExecutable file base0 remaps).mapping = none
    ∧ (StaticBinaryELF.mmapExecutable file base0 remaps).elfHeader = none
    ∧ (StaticBinaryELF.mmapExecutable file base0 remaps).symbolTable = none
    ∧ (StaticBinaryELF.mmapExecutable file base0 remaps).stringTable = none
    ∧ (∀ addr, StaticBinaryELF.getSectionLoadAddress file
        (StaticBinaryELF.mmapExecutable file base0 remaps) addr = none)
    ∧ (∀ addr, StaticBinaryELF.findSymbol file
        (StaticBinaryELF.mmapExecutable file base0 remaps) addr = none) := by
  have hok := readElfHeader_invalid file
    ⟨base0, ehdrSize, file.fileSize, remaps, 0⟩ hbad
  have hm : StaticBinaryELF.mmapExecutable file base0 remaps
      = { fileSize := file.fileSize, mapLength := 0, mapping := none,
          elfHeader := none, symbolTable := none, stringTable := none } := by
    simp only [StaticBinaryELF.mmapExecutable]
    rw [hok]
    simp
  rw [hm]
  exact ⟨rfl, rfl, rfl, rfl, fun addr => rfl, fun addr => rfl⟩

/-- Witness for c4_invalid_elf_disables_queries: a file with a wrong first
magic byte leaves the parser disabled and both queries answer none at the
address 0x42. -/
theorem c4_witness :
    (c4BadFile.ehdr.ei_mag0 ≠ ELFMAG0
      ∨ c4BadFile.ehdr.ei_mag1 ≠ ELFMAG1 ∨ c4BadFile.ehdr.ei_mag2 ≠ ELFMAG2
      ∨ c4BadFile.ehdr.ei_mag3 ≠ ELFMAG3 ∨ c4BadFile.ehdr.ei_class ≠ ELFCLASS
      ∨ c4BadFile.ehdr.e_type ≠ ET_EXEC
      ∨ c4BadFile.ehdr.e_version ≠ EV_CURRENT
      ∨ c4BadFile.ehdr.e_ehsize ≠ ehdrSize
      ∨ (c4BadFile.phdrs.take c4BadFile.ehdr.e_phnum).any
          (fun h => h.p_type == PT_INTERP) = true)
    ∧ (StaticBinaryELF.mmapExecutable c4BadFile 0x1000 stayRemaps).elfHeader
        = none
    ∧ StaticBinaryELF.getSectionLoadAddress c4BadFile
        (StaticBinaryELF.mmapExecutable c4BadFile 0x1000 stayRemaps) 0x42
        = none
    ∧ StaticBinaryELF.findSymbol c4BadFile
        (StaticBinaryELF.mmapExecutable c4BadFile 0x1000 stayRemaps) 0x42
        = none := by
  have h := c4_invalid_elf_disables_queries c4BadFile 0x1000 stayRemaps
    (Or.inl (by decide))
  exact ⟨Or.inl (by decide), h.2.1, h.2.2.2.2.1 0x42, h.2.2.2.2.2 0x42⟩

/-- Claim C2, demonstration at the failing input: parsing c2File with an
mremap relocation during the symbol-table findSection succeeds, the
elfHeader member is rebased to the new mapping base 0x100000, but the stored
symbolTable pointer is 0x1078 — computed as old base 0x1000 plus e_shoff 120
from the pre-relocation mapping — which lies entirely outside the final
mapping [0x100000, 0x100000 + 272), instead of being recomputed relative to
the new base. -/
theorem c2_stale_section_pointer :
    (StaticBinaryELF.mmapExecutable c2File 0x1000 c2Remaps).elfHeader
        = some 0x100000
    ∧ (StaticBinaryELF.mmapExecutable c2File 0x1000 c2Remaps).mapLength = 272
    ∧ (StaticBinaryELF.mmapExecutable c2File 0x1000 c2Remaps).symbolTable
        = some (0x1078, c2SymShdr)
    ∧ (0x1000 + c2File.ehdr.e_shoff) % W = 0x1078
    ∧ 0x1078 + shdrSize ≤ 0x100000 := by
  refine ⟨?_, ?_, ?_, ?_, ?_⟩ <;> decide

/-- Claim C3, counterexample: scanning c3File for SHT_SYMTAB hits the
corrupt section at index 1 (sh_size 25, sh_entsize 24) and findSection
returns no section at all, even though index 2 holds a later well-formed
section of the requested type that is not the section-header string table
and whose byte range could have been mapped; subsequent sections are not
scanned. -/
theorem c3_counterexample :
    (findSection c3File c3St SHT_SYMTAB).1 = none
    ∧ c3File.shdrs.get? 2 = some ⟨SHT_SYMTAB, 400, 24, 24⟩
    ∧ sectionCorrupt ⟨SHT_SYMTAB, 400, 24, 24⟩ = false
    ∧ (2 : Nat) ≠ c3File.ehdr.e_shstrndx
    ∧ (expandMapping c3St ((400 + 24) % W)).1 = true := by
  refine ⟨?_, ?_, ?_, ?_, ?_⟩ <;> decide

/-- Claim C3, amended: when the first section of the requested type reached
by the scan (after skipping the e_shstrndx index and sections of other
types) has a nonzero sh_entsize that does not divide sh_size, the findSection
scan stops and reports no section found — the corrupt section is not
selected and later sections of the same type are not considered — with the
mapping state unchanged; header parsing is not aborted: whenever the
section-header-table grow succeeded, readElfHeader still returns true
whatever the findSection scans produce. -/
theorem c3_corrupt_section_stops_search (file : ElfFile)
    (sectionType hb : Nat) (st : MapSt) (pre rest : List (Nat × ElfShdr))
    (idx : Nat) (c : ElfShdr)
    (hpre : ∀ p ∈ pre, p.1 = file.ehdr.e_shstrndx
      ∨ p.2.sh_type ≠ sectionType)
    (hidx : idx ≠ file.ehdr.e_shstrndx) (hty : c.sh_type = sectionType)
    (hcor : sectionCorrupt c = true) :
    findSectionLoop file sectionType hb (pre ++ (idx, c) :: rest) st
        = (none, st)
    ∧ ∀ r2 : Bool × MapSt, r2.1 = true →
        (readElfHeaderSections file r2).ok = true := by
  constructor
  · induction pre with
    | nil => simp [findSectionLoop, hidx, hty, hcor]
    | cons p ps ih =>
      obtain ⟨i, h⟩ := p
      have htail : ∀ q ∈ ps, q.1 = file.ehdr.e_shstrndx
          ∨ q.2.sh_type ≠ sectionType :=
        fun q hq => hpre q (List.mem_cons_of_mem _ hq)
      rcases hpre (i, h) (List.mem_cons_self _ _) with hskip | hnm
      · have hskip2 : i = file.ehdr.e_shstrndx := hskip
        simpa [findSectionLoop, hskip2] using ih htail
      · have hnm2 : h.sh_type ≠ sectionType := hnm
        by_cases hi : i = file.ehdr.e_shstrndx
        · simpa [findSectionLoop, hi] using ih htail
        · simpa [findSectionLoop, hi, hnm2] using ih htail
  · intro r2 h2
    simp [readElfHeaderSections, h2]

/-- Witness for c3_corrupt_section_stops_search at the c3 inputs. -/
theorem c3_witness :
    ((1 : Nat) ≠ c3File.ehdr.e_shstrndx)
    ∧ sectionCorrupt ⟨SHT_SYMTAB, 300, 25, 24⟩ = true
    ∧ findSectionLoop c3File SHT_SYMTAB 0x1078
        ([(0, ⟨0, 0, 0, 0⟩)]
          ++ (1, ⟨SHT_SYMTAB, 300, 25, 24⟩) :: [(2, ⟨SHT_SYMTAB, 400, 24, 24⟩)])
        c3St = (none, c3St)
    ∧ (readElfHeaderSections c3File (true, c3St)).ok = true := by
  have h := c3_corrupt_section_stops_search c3File SHT_SYMTAB 0x1078 c3St
    [(0, ⟨0, 0, 0, 0⟩)] [(2, ⟨SHT_SYMTAB, 400, 24, 24⟩)] 1
    ⟨SHT_SYMTAB, 300, 25, 24⟩ (by decide) (by decide) rfl (by decide)
  exact ⟨by decide, by decide, h.1, h.2 (true, c3St) rfl⟩

/-- The 64-bit range test of findSymbol agrees with the mathematical
half-open-interval predicate of the specification when the range end does
not overflow. -/
theorem symMatches_eq_spec (addr : Nat) (s : ElfSym)
    (h : s.st_value + s.st_size < W) :
    StaticBinaryELF.symMatches addr s = specSymMatch addr s := by
  simp only [StaticBinaryELF.symMatches, specSymMatch, Nat.mod_eq_of_lt h]
  by_cases h1 : s.st_type = STT_FUNC <;> by_cases h2 : s.st_value ≤ addr <;>
    by_cases h3 : addr < s.st_value + s.st_size <;>
    simp [h1, h2, h3]

/-- The findSymbol loop is the first-match search over the scanned symbol
list. -/
theorem findSymbolLoop_eq_find (addr : Nat) (l : List ElfSym)
    (h : ∀ s ∈ l, s.st_value + s.st_size < W) :
    StaticBinaryELF.findSymbolLoop addr l = l.find? (specSymMatch addr) := by
  induction l with
  | nil => rfl
  | cons s rest ih =>
    have hs := symMatches_eq_spec addr s (h s (List.mem_cons_self s rest))
    have htail := ih fun q hq => h q (List.mem_cons_of_mem _ hq)
    by_cases hm : specSymMatch addr s = true
    · rw [List.find?_cons_of_pos _ hm]
      simp [StaticBinaryELF.findSymbolLoop, hs, hm]
    · rw [List.find?_cons_of_neg _ (by simpa using hm)]
      simp only [StaticBinaryELF.findSymbolLoop, hs,
        eq_false_of_ne_true hm, if_false]
      exact htail

/-- Claim C6: findSymbol answers none when the symbol table is absent;
otherwise it scans the symbol table in table order — sh_size / sh_entsize
entries — and returns the first entry of function type whose half-open range
[st_value, st_value + st_size) contains the address, none when no entry
matches; an address equal to st_value + st_size of a symbol does not match
that symbol. -/
theorem c6_findSymbol_first_function_match (file : ElfFile)
    (p : StaticBinaryELF) (addr : Nat)
    (hnov : ∀ s ∈ file.syms, s.st_value + s.st_size < W) :
    (p.symbolTable = none → StaticBinaryELF.findSymbol file p addr = none)
    ∧ (∀ q sec, p.symbolTable = some (q, sec) →
        StaticBinaryELF.findSymbol file p addr
          = (file.syms.take (sec.sh_size / sec.sh_entsize)).find?
              (specSymMatch addr))
    ∧ (∀ s : ElfSym, s.st_value + s.st_size < W →
        addr = s.st_value + s.st_size →
        StaticBinaryELF.symMatches addr s = false) := by
  refine ⟨fun h => by simp [StaticBinaryELF.findSymbol, h],
    fun q sec h => ?_, fun s hw he => ?_⟩
  · simp only [StaticBinaryELF.findSymbol, h]
    exact findSymbolLoop_eq_find addr _
      (fun s hs => hnov s (List.take_subset _ _ hs))
  · simp [StaticBinaryELF.symMatches, Nat.mod_eq_of_lt hw, he]

/-- Witness for c6_findSymbol_first_function_match: over c6Parser the scan
covers 48 / 24 = 2 entries and the query at 0x1010 is the first-match
search. -/
theorem c6_witness :
    (∀ s ∈ c6File.syms, s.st_value + s.st_size < W)
    ∧ StaticBinaryELF.findSymbol c6File c6Parser 0x1010
        = (c6File.syms.take 2).find? (specSymMatch 0x1010)
    ∧ StaticBinaryELF.findSymbol c6File c6Parser 0x1010
        = some ⟨STT_FUNC, 0x1000, 0x20⟩ := by
  have h := (c6_findSymbol_first_function_match c6File c6Parser 0x1010
    (by decide)).2.1 0x1078 ⟨SHT_SYMTAB, 248, 48, 24⟩ rfl
  exact ⟨by decide, h, by decide⟩

/-- The 64-bit range test of getSectionLoadAddress agrees with the
mathematical closed-interval predicate of the specification when the range
end does not overflow. -/
theorem phMatches_eq_spec (addr : Nat) (h : ElfPhdr)
    (hov : h.p_vaddr + h.p_memsz < W) :
    StaticBinaryELF.phMatches addr h = specPhMatch addr h := by
  simp only [StaticBinaryELF.phMatches, specPhMatch, Nat.mod_eq_of_lt hov]
  by_cases h1 : h.p_type = PT_LOAD <;> by_cases h2 : h.p_vaddr ≤ addr <;>
    by_cases h3 : addr ≤ h.p_vaddr + h.p_memsz <;>
    simp [h1, h2, h3]

/-- The getSectionLoadAddress loop returns the p_vaddr of the first matching
program header of the scanned list. -/
theorem loadSegLoop_eq_find (addr : Nat) (l : List ElfPhdr)
    (hov : ∀ h ∈ l, h.p_vaddr + h.p_memsz < W) :
    StaticBinaryELF.loadSegLoop addr l
      = (l.find? (specPhMatch addr)).map (fun h => h.p_vaddr) := by
  induction l with
  | nil => rfl
  | cons h rest ih =>
    have hh := phMatches_eq_spec addr h (hov h (List.mem_cons_self h rest))
    have htail := ih fun q hq => hov q (List.mem_cons_of_mem _ hq)
    by_cases hm : specPhMatch addr h = true
    · rw [List.find?_cons_of_pos _ hm]
      simp [StaticBinaryELF.loadSegLoop, hh, hm]
    · rw [List.find?_cons_of_neg _ (by simpa using hm)]
      simp only [StaticBinaryELF.loadSegLoop, hh,
        eq_false_of_ne_true hm, if_false]
      exact htail

/-- Claim C7: getSectionLoadAddress answers none when the parser is disabled
(null elfHeader); otherwise it scans the e_phnum program headers in order
and returns the p_vaddr of the first PT_LOAD header whose closed range
[p_vaddr, p_vaddr + p_memsz] contains the address — both endpoints included —
or none when no program header qualifies. -/
theorem c7_load_segment_scan (file : ElfFile) (p : StaticBinaryELF)
    (addr : Nat)
    (hov : ∀ h ∈ file.phdrs, h.p_vaddr + h.p_memsz < W) :
    (p.elfHeader = none →
        StaticBinaryELF.getSectionLoadAddress file p addr = none)
    ∧ (∀ q, p.elfHeader = some q →
        StaticBinaryELF.getSectionLoadAddress file p addr
          = ((file.phdrs.take file.ehdr.e_phnum).find?
              (specPhMatch addr)).map (fun h => h.p_vaddr)) := by
  refine ⟨fun h => by simp [StaticBinaryELF.getSectionLoadAddress, h],
    fun q h => ?_⟩
  simp only [StaticBinaryELF.getSectionLoadAddress, h]
  exact loadSegLoop_eq_find addr _
    (fun s hs => hov s (List.take_subset _ _ hs))

/-- Witness for c7_load_segment_scan: over c6Parser the scan covers the one
program header and the query at 0x1010 finds the PT_LOAD segment based at
0. -/
theorem c7_witness :
    (∀ h ∈ c6File.phdrs, h.p_vaddr + h.p_memsz < W)
    ∧ StaticBinaryELF.getSectionLoadAddress c6File c6Parser 0x1010
        = ((c6File.phdrs.take 1).find? (specPhMatch 0x1010)).map
            (fun h => h.p_vaddr)
    ∧ StaticBinaryELF.getSectionLoadAddress c6File c6Parser 0x1010
        = some 0 := by
  have h := (c7_load_segment_scan c6File c6Parser 0x1010 (by decide)).2
    0x1000 rfl
  exact ⟨by decide, h, by decide⟩
